import Mathlib

/-!
Shallow embedding of the job-lifecycle core of the Construction_Web
repository: the status workflow engine (`src/lib/utils/workflow.ts`),
the identifier generators (`generateEstimateNumber` /
`generateInvoiceNumber`), the overdue calculator
(`calculateOverdueStatus`), and the orchestrator operations from
`src/lib/actions/{estimates,jobs,invoices}.ts`.  Statuses are strings
(the database column is a free-form varchar), money amounts are
rationals (JS numbers / SQL decimals), timestamps are integer
milliseconds, and the jobs relation is a list of `Job` records.
-/

namespace CW

/-! ## Decimal rendering of natural numbers (JS `Number.prototype.toString`)

`Nat.repr` is Lean's decimal rendering; `natDigits` is a structurally
recursive re-statement used to reason about its length and characters. -/

def natDigits (n : Nat) : List Char :=
  if _h : n < 10 then [Nat.digitChar n]
  else natDigits (n / 10) ++ [Nat.digitChar (n % 10)]
decreasing_by exact Nat.div_lt_self (by omega) (by omega)

theorem natDigits_ne_nil (n : Nat) : natDigits n ≠ [] := by
  rw [natDigits]
  split <;> simp

theorem digitChar_isDigit {m : Nat} (h : m < 10) : (Nat.digitChar m).isDigit = true := by
  interval_cases m <;> decide

theorem natDigits_all_digit (n : Nat) : ∀ c ∈ natDigits n, c.isDigit = true := by
  induction n using Nat.strong_induction_on with
  | _ n ih =>
    rw [natDigits]
    split
    · next h =>
      intro c hc
      simp only [List.mem_singleton] at hc
      subst hc
      exact digitChar_isDigit h
    · next h =>
      intro c hc
      rcases List.mem_append.mp hc with h1 | h2
      · exact ih (n / 10) (Nat.div_lt_self (by omega) (by omega)) c h1
      · simp only [List.mem_singleton] at h2
        subst h2
        exact digitChar_isDigit (Nat.mod_lt _ (by omega))

theorem natDigits_length_lt10 {n : Nat} (h : n < 10) : (natDigits n).length = 1 := by
  rw [natDigits]
  simp [h]

theorem natDigits_length_ge10 {n : Nat} (h : 10 ≤ n) :
    (natDigits n).length = (natDigits (n / 10)).length + 1 := by
  rw [natDigits, dif_neg (by omega)]
  simp

theorem natDigits_length_pos (n : Nat) : 1 ≤ (natDigits n).length :=
  List.length_pos.mpr (natDigits_ne_nil n)

theorem natDigits_length_ge2 {n : Nat} (h : 10 ≤ n) : 2 ≤ (natDigits n).length := by
  rw [natDigits_length_ge10 h]
  have := natDigits_length_pos (n / 10)
  omega

theorem natDigits_length_two {n : Nat} (h1 : 10 ≤ n) (h2 : n < 100) :
    (natDigits n).length = 2 := by
  rw [natDigits_length_ge10 h1, natDigits_length_lt10 (show n / 10 < 10 by omega)]

theorem natDigits_length_three {n : Nat} (h1 : 100 ≤ n) (h2 : n < 1000) :
    (natDigits n).length = 3 := by
  rw [natDigits_length_ge10 (by omega), natDigits_length_ge10 (show 10 ≤ n / 10 by omega),
    natDigits_length_lt10 (show n / 10 / 10 < 10 by omega)]

theorem toDigitsCore_eq (fuel : Nat) : ∀ (n : Nat) (ds : List Char), n < fuel →
    Nat.toDigitsCore 10 fuel n ds = natDigits n ++ ds := by
  induction fuel with
  | zero => omega
  | succ f ih =>
    intro n ds h
    rw [Nat.toDigitsCore.eq_def]
    dsimp only
    split
    · next hz =>
      have hn : n < 10 := by omega
      rw [natDigits, dif_pos hn, Nat.mod_eq_of_lt hn]
      rfl
    · next hz =>
      have h10 : 10 ≤ n := by
        rcases Nat.lt_or_ge n 10 with hlt | hge
        · exact absurd (Nat.div_eq_of_lt hlt) hz
        · exact hge
      have hf : n / 10 < f := by omega
      rw [ih (n / 10) _ hf]
      conv_rhs => rw [natDigits]
      rw [dif_neg (show ¬n < 10 by omega)]
      simp

theorem repr_eq_natDigits (n : Nat) : Nat.repr n = String.mk (natDigits n) := by
  show (Nat.toDigits 10 n).asString = String.mk (natDigits n)
  unfold Nat.toDigits List.asString
  rw [toDigitsCore_eq _ _ _ (Nat.lt_succ_self n)]
  simp

/-! ## Small string helpers used by the generators -/

/-- All characters of `s` are decimal digits. -/
def allDigits (s : String) : Bool := s.data.all Char.isDigit

/-- JS `String.prototype.padStart(target, '0')`. -/
def padStartZeros (target : Nat) (s : String) : String :=
  if target ≤ s.data.length then s
  else String.mk (List.replicate (target - s.data.length) '0') ++ s

/-- Two-digit zero-pad of a number, as in `.toString().padStart(2, '0')`. -/
def pad2 (n : Nat) : String := padStartZeros 2 (Nat.repr n)

/-- Three-digit zero-pad of a number, as in `.toString().padStart(3, '0')`. -/
def pad3 (n : Nat) : String := padStartZeros 3 (Nat.repr n)

/-- JS `String.prototype.slice(-2)`: the last two characters (the whole
string when it is shorter). -/
def lastTwo (s : String) : String := String.mk (s.data.drop (s.data.length - 2))

theorem data_append (s t : String) : (s ++ t).data = s.data ++ t.data := rfl

theorem length_mk (cs : List Char) : (String.mk cs).length = cs.length := rfl

theorem allDigits_append (s t : String) :
    allDigits (s ++ t) = (allDigits s && allDigits t) := by
  simp [allDigits, data_append, List.all_append]

theorem allDigits_repr (n : Nat) : allDigits (String.mk (natDigits n)) = true := by
  simp only [allDigits, List.all_eq_true]
  exact natDigits_all_digit n

/-! ## Data model

`Job` mirrors the `jobs` relation of `src/lib/db/schema.ts`: `status` is
a free-form varchar, milestone date columns are nullable date strings,
`totalAmount` is a decimal (modelled as a rational), `invoiceNumber` is
nullable.  The ambient clock is a `Date` record (year, month 1-12, day). -/

structure Date where
  year : Nat
  month : Nat
  day : Nat
deriving DecidableEq

/-- The `YYYY-MM-DD` string produced by `new Date().toISOString().split('T')[0]`. -/
def isoDate (d : Date) : String :=
  padStartZeros 4 (Nat.repr d.year) ++ "-" ++ pad2 d.month ++ "-" ++ pad2 d.day

/-- The `YYMMDD` date prefix built by both identifier generators. -/
def yymmddOf (d : Date) : String :=
  lastTwo (Nat.repr d.year) ++ pad2 d.month ++ pad2 d.day

structure Job where
  id : Nat
  customerId : Nat
  estimateNumber : String
  invoiceNumber : Option String
  estimateDate : String
  approvalDate : Option String
  startDate : Option String
  completionDate : Option String
  invoiceDate : Option String
  paymentDate : Option String
  status : String
  totalAmount : ℚ
  notes : Option String
deriving DecidableEq

/-- The store: the `jobs` relation, one record per estimate/job/invoice. -/
def findJob (store : List Job) (id : Nat) : Option Job :=
  store.find? (fun j => j.id == id)

/-- A drizzle `update ... where eq(jobs.id, id)`: rewrite every matching row. -/
def updateJob (store : List Job) (id : Nat) (f : Job → Job) : List Job :=
  store.map (fun j => if j.id = id then f j else j)

/-! ## Status workflow engine (`src/lib/utils/workflow.ts`) -/

def JOB_STATUSES : List String :=
  ["Estimate Created", "Estimate Sent", "Approved", "In Progress",
   "Completed", "Invoiced", "Paid"]

def STATUS_ORDER : List String := JOB_STATUSES

/-- JS `Array.prototype.indexOf`: the index of the first occurrence, `-1`
when absent. -/
def idxFrom (s : String) : List String → Int → Int
  | [], _ => -1
  | x :: xs, i => if x = s then i else idxFrom s xs (i + 1)

def indexOfStr (l : List String) (s : String) : Int := idxFrom s l 0

/-- `canTransitionTo`: the new index must be exactly the current index plus one. -/
def canTransitionTo (currentStatus newStatus : String) : Bool :=
  indexOfStr STATUS_ORDER newStatus == indexOfStr STATUS_ORDER currentStatus + 1

/-- `getNextStatus`: `null` when the status is unknown or last, else the
successor in the order. -/
def getNextStatus (currentStatus : String) : Option String :=
  let currentIdx := indexOfStr STATUS_ORDER currentStatus
  if currentIdx = -1 ∨ (STATUS_ORDER.length : Int) - 1 ≤ currentIdx then none
  else STATUS_ORDER.get? (currentIdx + 1).toNat

/-- `STATUS_DATE_FIELDS`: the date column stamped on entering each status;
`Estimate Sent` has none. -/
def STATUS_DATE_FIELDS (status : String) : Option String :=
  if status = "Estimate Created" then some "estimateDate"
  else if status = "Estimate Sent" then none
  else if status = "Approved" then some "approvalDate"
  else if status = "In Progress" then some "startDate"
  else if status = "Completed" then some "completionDate"
  else if status = "Invoiced" then some "invoiceDate"
  else if status = "Paid" then some "paymentDate"
  else none

/-- Write one named date column of a job record. -/
def setDateField (j : Job) (field date : String) : Job :=
  if field = "estimateDate" then { j with estimateDate := date }
  else if field = "approvalDate" then { j with approvalDate := some date }
  else if field = "startDate" then { j with startDate := some date }
  else if field = "completionDate" then { j with completionDate := some date }
  else if field = "invoiceDate" then { j with invoiceDate := some date }
  else if field = "paymentDate" then { j with paymentDate := some date }
  else j

/-- `getStatusDateUpdates(newStatus)` applied to a row: stamp the status's
date column with today's ISO date, or change nothing if there is none. -/
def applyStatusDateUpdates (newStatus : String) (today : Date) (j : Job) : Job :=
  match STATUS_DATE_FIELDS newStatus with
  | some f => setDateField j f (isoDate today)
  | none => j

/-! ## Identifier generators (`generateEstimateNumber` / `generateInvoiceNumber`) -/

/-- SQL `LIKE 'pfx%'` on a string column. -/
def likeStarts (s pfx : String) : Bool := pfx.data.isPrefixOf s.data

/-- Count of rows whose `estimateNumber` starts with the given prefix. -/
def estPfxCount (store : List Job) (pfx : String) : Nat :=
  (store.filter (fun j => likeStarts j.estimateNumber pfx)).length

/-- Count of rows whose (non-null) `invoiceNumber` starts with the given prefix. -/
def invPfxCount (store : List Job) (pfx : String) : Nat :=
  (store.filter (fun j =>
    match j.invoiceNumber with
    | some n => likeStarts n pfx
    | none => false)).length

/-- `generateEstimateNumber`: `YYMMDD` + `T` + `Math.floor(100 + rand * 900)`
(`rand` is the value of `Math.random()`, in `[0, 1)`) + the character at
code point `65 + count` of same-day estimate numbers. -/
def generateEstimateNumber (store : List Job) (today : Date) (rand : ℚ) : String :=
  let datePfx := yymmddOf today
  let count := estPfxCount store datePfx
  let sequenceLetter := Char.ofNat (65 + count)
  let randomDigits := Nat.repr (Rat.floor (100 + rand * 900)).toNat
  datePfx ++ "T" ++ randomDigits ++ String.mk [sequenceLetter]

/-- `generateInvoiceNumber`: `YYMMDD` + `(count + 1).toString().padStart(3, '0')`
over same-day invoice numbers. -/
def generateInvoiceNumber (store : List Job) (today : Date) : String :=
  let datePfx := yymmddOf today
  let count := invPfxCount store datePfx
  datePfx ++ pad3 (count + 1)

/-! ## Orchestrator operations

Each operation returns the discriminated `{success, error?}` result
(modelled as `Except String _`) together with the resulting jobs
relation.  `revalidatePath`, `updatedAt` and the line-items relation are
presentation/bookkeeping details outside the modelled state. -/

/-- JS `String.prototype.trim`: whitespace stripped from both ends
(stated over the character list so it is structurally computable). -/
def strTrim (s : String) : String :=
  String.mk (((s.data.dropWhile Char.isWhitespace).reverse.dropWhile
    Char.isWhitespace).reverse)

/-- JS `s.trim() || null`. -/
def trimOrNull (s : String) : Option String :=
  if strTrim s = "" then none else some (strTrim s)

/-- JS `notes?.trim() || null` on an optional field. -/
def optTrimOrNull : Option String → Option String
  | none => none
  | some s => trimOrNull s

structure LineItemInput where
  action : String
  amount : ℚ
  description : String
deriving DecidableEq

/-- The validation loop of `createEstimate`, with its 1-based error indices. -/
def findLineItemError : List LineItemInput → Nat → Option String
  | [], _ => none
  | item :: rest, i =>
    if strTrim item.action = "" then
      some ("Line item " ++ Nat.repr (i + 1) ++ ": Action is required")
    else if item.amount < 0 then
      some ("Line item " ++ Nat.repr (i + 1) ++ ": Amount must be positive")
    else if strTrim item.description = "" then
      some ("Line item " ++ Nat.repr (i + 1) ++ ": Description is required")
    else findLineItemError rest (i + 1)

/-- `createEstimate` (`src/lib/actions/estimates.ts`): validate line items,
mint the estimate number, sum the amounts, insert the new row with status
`Estimate Created` and today's `estimateDate`. -/
def createEstimate (store : List Job) (newId customerId : Nat)
    (items : List LineItemInput) (notes : Option String)
    (today : Date) (rand : ℚ) : Except String Job × List Job :=
  if items.isEmpty then (.error "At least one line item is required", store)
  else
    match findLineItemError items 0 with
    | some e => (.error e, store)
    | none =>
      let total := items.foldl (fun sum item => sum + item.amount) 0
      let newJob : Job := {
        id := newId
        customerId := customerId
        estimateNumber := generateEstimateNumber store today rand
        invoiceNumber := none
        estimateDate := isoDate today
        approvalDate := none
        startDate := none
        completionDate := none
        invoiceDate := none
        paymentDate := none
        status := "Estimate Created"
        totalAmount := total
        notes := optTrimOrNull notes }
      (.ok newJob, store ++ [newJob])

/-- `approveEstimate`: legal from `Estimate Created` or `Estimate Sent`;
sets status `Approved` and stamps `approvalDate`. -/
def approveEstimate (store : List Job) (id : Nat) (today : Date) :
    Except String Unit × List Job :=
  match findJob store id with
  | none => (.error "Estimate not found", store)
  | some job =>
    if job.status ≠ "Estimate Created" ∧ job.status ≠ "Estimate Sent" then
      (.error "Estimate has already been approved", store)
    else
      (.ok (), updateJob store id (fun j =>
        applyStatusDateUpdates "Approved" today { j with status := "Approved" }))

/-- The error string of `updateJobStatus` for an illegal transition. -/
def transitionErrMsg (cur req : String) : String :=
  "Cannot transition from \"" ++ cur ++ "\" to \"" ++ req ++
    "\". Status must progress in order."

/-- `updateJobStatus` (`src/lib/actions/jobs.ts`): validate with
`canTransitionTo`, then write the new status plus its date stamp. -/
def updateJobStatus (store : List Job) (id : Nat) (newStatus : String)
    (today : Date) : Except String Unit × List Job :=
  match findJob store id with
  | none => (.error "Job not found", store)
  | some job =>
    if canTransitionTo job.status newStatus then
      (.ok (), updateJob store id (fun j =>
        applyStatusDateUpdates newStatus today { j with status := newStatus }))
    else
      (.error (transitionErrMsg job.status newStatus), store)

/-- `startJob`: thin wrapper on `updateJobStatus` targeting `In Progress`. -/
def startJob (store : List Job) (id : Nat) (today : Date) :
    Except String Unit × List Job :=
  updateJobStatus store id "In Progress" today

/-- `completeJob`: thin wrapper on `updateJobStatus` targeting `Completed`. -/
def completeJob (store : List Job) (id : Nat) (today : Date) :
    Except String Unit × List Job :=
  updateJobStatus store id "Completed" today

/-- `updateJobNotes` (`src/lib/actions/jobs.ts`): writes the trimmed notes
unconditionally; there is no status check and no not-found check. -/
def updateJobNotes (store : List Job) (id : Nat) (notes : String) :
    Except String Unit × List Job :=
  (.ok (), updateJob store id (fun j => { j with notes := trimOrNull notes }))

/-- `updateInvoiceNotes` (invoices module): rejects paid invoices. -/
def updateInvoiceNotes (store : List Job) (id : Nat) (notes : String) :
    Except String Unit × List Job :=
  match findJob store id with
  | none => (.error "Invoice not found", store)
  | some job =>
    if job.status = "Paid" then (.error "Cannot edit paid invoice", store)
    else (.ok (), updateJob store id (fun j => { j with notes := trimOrNull notes }))

/-- `createInvoice` (invoices module): legal only from `Completed`; mints
the invoice number, sets status `Invoiced` and stamps `invoiceDate`. -/
def createInvoice (store : List Job) (jobId : Nat) (today : Date) :
    Except String Unit × List Job :=
  match findJob store jobId with
  | none => (.error "Job not found", store)
  | some job =>
    if job.status ≠ "Completed" then
      (.error "Job must be completed before invoicing", store)
    else
      (.ok (), updateJob store jobId (fun j =>
        applyStatusDateUpdates "Invoiced" today
          { j with status := "Invoiced",
                   invoiceNumber := some (generateInvoiceNumber store today) }))

/-! ## Aging / overdue calculator (`calculateOverdueStatus`) -/

def msPerDay : Int := 1000 * 60 * 60 * 24

/-- `calculateOverdueStatus`: pure in (status, invoiceDate, now); times are
epoch milliseconds, `Math.floor` of the day quotient is floor division. -/
def calculateOverdueStatus (status : String) (invoiceDate : Option Int)
    (now : Int) : Bool × Int :=
  match invoiceDate with
  | none => (false, 0)
  | some inv =>
    if status = "Paid" then (false, 0)
    else
      let daysSinceInvoice := Int.fdiv (now - inv) msPerDay
      (decide (30 < daysSinceInvoice),
       if 30 < daysSinceInvoice then daysSinceInvoice - 30 else 0)

/-! ## Fixtures for concrete instances -/

/-- A job row with the given id and status and default remaining columns. -/
def demoJob (id : Nat) (status : String) : Job :=
  { id := id
    customerId := 1
    estimateNumber := "250101T100A"
    invoiceNumber := none
    estimateDate := "2025-01-01"
    approvalDate := none
    startDate := none
    completionDate := none
    invoiceDate := none
    paymentDate := none
    status := status
    totalAmount := 0
    notes := none }

def demoDate : Date := ⟨2025, 10, 11⟩

/-! ## Specification-side predicates -/

/-- `t` is the immediate successor of `s` in the fixed 7-status order:
they sit at consecutive indices. -/
def immediateSuccessor (s t : String) : Prop :=
  ∃ i : Fin 7, JOB_STATUSES.get? i.val = some s ∧ JOB_STATUSES.get? (i.val + 1) = some t

instance (s t : String) : Decidable (immediateSuccessor s t) := by
  unfold immediateSuccessor
  infer_instance

/-- A line item passing `createEstimate` validation: non-blank action and
description after trimming, non-negative amount. -/
def validItem (it : LineItemInput) : Prop :=
  strTrim it.action ≠ "" ∧ 0 ≤ it.amount ∧ strTrim it.description ≠ ""

instance (it : LineItemInput) : Decidable (validItem it) := by
  unfold validItem
  infer_instance

/-! ## Workflow-engine lemmas -/

theorem idxFrom_of_not_mem {s : String} :
    ∀ (l : List String) (acc : Int), s ∉ l → idxFrom s l acc = -1
  | [], _, _ => rfl
  | x :: xs, acc, h => by
    rw [idxFrom, if_neg (by rintro rfl; exact h (List.mem_cons_self _ _))]
    exact idxFrom_of_not_mem xs (acc + 1) (fun hm => h (List.mem_cons_of_mem _ hm))

/-! ## C1: transitions among the seven known statuses -/

/-- C1: for statuses drawn from the fixed 7-value order,
`canTransitionTo S S'` is true iff `S'` is the immediate successor of `S`
(index difference exactly +1); in particular it is false for staying put
and false for every target when the current status is the terminal
`Paid`. -/
theorem canTransitionTo_iff_succ (s t : String)
    (hs : s ∈ JOB_STATUSES) (ht : t ∈ JOB_STATUSES) :
    (canTransitionTo s t = true ↔ immediateSuccessor s t) ∧
    canTransitionTo s s = false ∧
    canTransitionTo "Paid" t = false := by
  simp only [JOB_STATUSES, List.mem_cons, List.not_mem_nil, or_false] at hs ht
  rcases hs with rfl | rfl | rfl | rfl | rfl | rfl | rfl <;>
    rcases ht with rfl | rfl | rfl | rfl | rfl | rfl | rfl <;>
    exact ⟨by decide, by decide, by decide⟩

/-- Witness for C1 at the adjacent pair (Approved, In Progress). -/
theorem canTransitionTo_iff_succ_witness :
    ("Approved" ∈ JOB_STATUSES ∧ "In Progress" ∈ JOB_STATUSES) ∧
    ((canTransitionTo "Approved" "In Progress" = true ↔
        immediateSuccessor "Approved" "In Progress") ∧
      canTransitionTo "Approved" "Approved" = false ∧
      canTransitionTo "Paid" "In Progress" = false) :=
  ⟨⟨by decide, by decide⟩,
    canTransitionTo_iff_succ "Approved" "In Progress" (by decide) (by decide)⟩

/-! ## C10: unrecognized status strings -/

/-- C10: a current status outside the 7-value order has index −1, so
`canTransitionTo unknown "Estimate Created"` is true (0 = −1 + 1) while
`getNextStatus unknown` is null. -/
theorem unknown_status_admits_initial (s : String) (h : s ∉ JOB_STATUSES) :
    canTransitionTo s "Estimate Created" = true ∧ getNextStatus s = none := by
  have hidx : indexOfStr STATUS_ORDER s = -1 := idxFrom_of_not_mem _ _ h
  constructor
  · show (indexOfStr STATUS_ORDER "Estimate Created" ==
      indexOfStr STATUS_ORDER s + 1) = true
    rw [hidx]
    decide
  · simp [getNextStatus, hidx]

/-- Witness for C10 at the unknown status "Bogus". -/
theorem unknown_status_admits_initial_witness :
    "Bogus" ∉ JOB_STATUSES ∧
    (canTransitionTo "Bogus" "Estimate Created" = true ∧
      getNextStatus "Bogus" = none) :=
  ⟨by decide, unknown_status_admits_initial "Bogus" (by decide)⟩

/-! ## C5: the overdue calculation -/

/-- C5: `calculateOverdueStatus` is pure in (status, invoiceDate, now):
`Paid` or a missing invoice date yields (false, 0); otherwise, with
`days = floor((now − invoiceDate) / day)`, it yields
(days > 30, days − 30 when overdue else 0); in particular an unpaid job
invoiced exactly 31 days before now yields (true, 1). -/
theorem calculateOverdueStatus_spec (status : String) (invOpt : Option Int)
    (now : Int) :
    ((status = "Paid" ∨ invOpt = none) →
      calculateOverdueStatus status invOpt now = (false, 0)) ∧
    (∀ inv, invOpt = some inv → status ≠ "Paid" →
      calculateOverdueStatus status invOpt now =
        (decide (30 < Int.fdiv (now - inv) msPerDay),
         if 30 < Int.fdiv (now - inv) msPerDay
         then Int.fdiv (now - inv) msPerDay - 30 else 0)) ∧
    (∀ inv, invOpt = some inv → status ≠ "Paid" → inv = now - 31 * msPerDay →
      calculateOverdueStatus status invOpt now = (true, 1)) := by
  refine ⟨?_, ?_, ?_⟩
  · rintro (hp | hn)
    · cases invOpt with
      | none => rfl
      | some inv => simp [calculateOverdueStatus, hp]
    · subst hn
      rfl
  · rintro inv rfl hp
    simp [calculateOverdueStatus, hp]
  · rintro inv rfl hp rfl
    have h31 : now - (now - 31 * msPerDay) = 31 * msPerDay := by ring
    have hdiv : Int.fdiv (31 * msPerDay) msPerDay = 31 := by decide
    simp [calculateOverdueStatus, hp, h31, hdiv]

/-- Witness for C5: invoiced exactly 31 days ago and unpaid. -/
theorem calculateOverdueStatus_spec_witness :
    calculateOverdueStatus "Invoiced" (some 0) (31 * msPerDay) = (true, 1) :=
  (calculateOverdueStatus_spec "Invoiced" (some 0) (31 * msPerDay)).2.2 0 rfl
    (by decide) (by decide)

/-! ## C8: illegal transitions through `updateJobStatus` -/

/-- C8: when the requested status is not a legal transition from the
job's current status, `updateJobStatus` returns a discriminated failure
whose message names both statuses and leaves the store unchanged (no
write happens); `startJob` and `completeJob` are definitionally that
call. -/
theorem updateJobStatus_illegal (store : List Job) (id : Nat)
    (newStatus : String) (today : Date) (job : Job)
    (hfind : findJob store id = some job)
    (hbad : canTransitionTo job.status newStatus = false) :
    updateJobStatus store id newStatus today =
      (.error (transitionErrMsg job.status newStatus), store) ∧
    (∃ s1 s2 s3, transitionErrMsg job.status newStatus =
      s1 ++ job.status ++ (s2 ++ (newStatus ++ s3))) ∧
    startJob store id today = updateJobStatus store id "In Progress" today ∧
    completeJob store id today = updateJobStatus store id "Completed" today := by
  refine ⟨?_, ?_, rfl, rfl⟩
  · simp only [updateJobStatus, hfind, hbad]
    rfl
  · refine ⟨"Cannot transition from \"", "\" to \"",
      "\". Status must progress in order.", ?_⟩
    simp [transitionErrMsg, String.append_assoc]

/-- Witness for C8: `startJob` on a job whose status is Estimate Created. -/
theorem updateJobStatus_illegal_witness :
    (findJob [demoJob 1 "Estimate Created"] 1 =
        some (demoJob 1 "Estimate Created") ∧
      canTransitionTo (demoJob 1 "Estimate Created").status "In Progress" =
        false) ∧
    (updateJobStatus [demoJob 1 "Estimate Created"] 1 "In Progress" demoDate =
        (.error (transitionErrMsg (demoJob 1 "Estimate Created").status
          "In Progress"), [demoJob 1 "Estimate Created"]) ∧
      (∃ s1 s2 s3, transitionErrMsg (demoJob 1 "Estimate Created").status
          "In Progress" =
        s1 ++ (demoJob 1 "Estimate Created").status ++
          (s2 ++ ("In Progress" ++ s3))) ∧
      startJob [demoJob 1 "Estimate Created"] 1 demoDate =
        updateJobStatus [demoJob 1 "Estimate Created"] 1 "In Progress"
          demoDate ∧
      completeJob [demoJob 1 "Estimate Created"] 1 demoDate =
        updateJobStatus [demoJob 1 "Estimate Created"] 1 "Completed"
          demoDate) :=
  ⟨⟨rfl, by decide⟩,
    updateJobStatus_illegal [demoJob 1 "Estimate Created"] 1 "In Progress"
      demoDate (demoJob 1 "Estimate Created") rfl (by decide)⟩

/-! ## Store lemmas -/

theorem findJob_updateJob (store : List Job) (id : Nat) (f : Job → Job)
    (hpres : ∀ j, (f j).id = j.id) :
    findJob (updateJob store id f) id = (findJob store id).map f := by
  simp only [findJob, updateJob]
  induction store with
  | nil => rfl
  | cons j rest ih =>
    simp only [List.map_cons]
    by_cases hj : j.id = id
    · rw [if_pos hj]
      rw [List.find?_cons_of_pos _ (by simp [hpres j, hj])]
      rw [List.find?_cons_of_pos _ (by simp [hj])]
      rfl
    · rw [if_neg hj]
      rw [List.find?_cons_of_neg _ (by simp [hj])]
      rw [List.find?_cons_of_neg _ (by simp [hj])]
      exact ih

theorem applyApproved (today : Date) (j : Job) :
    applyStatusDateUpdates "Approved" today { j with status := "Approved" } =
      { j with status := "Approved", approvalDate := some (isoDate today) } := rfl

theorem applyInvoiced (today : Date) (num : String) (j : Job) :
    applyStatusDateUpdates "Invoiced" today
        { j with status := "Invoiced", invoiceNumber := some num } =
      { j with
          status := "Invoiced"
          invoiceNumber := some num
          invoiceDate := some (isoDate today) } := rfl

/-! ## C2: `approveEstimate` -/

/-- C2: `approveEstimate` succeeds exactly when the found job's status is
`Estimate Created` or `Estimate Sent`; on success the job's status
becomes `Approved` and `approvalDate` is stamped with today's date, with
every row's `estimateNumber` and `invoiceNumber` left unchanged; from
any other status it fails and leaves the store unchanged. -/
theorem approveEstimate_spec (store : List Job) (id : Nat) (today : Date)
    (job : Job) (hfind : findJob store id = some job) :
    ((approveEstimate store id today).1 = .ok () ↔
      (job.status = "Estimate Created" ∨ job.status = "Estimate Sent")) ∧
    ((job.status = "Estimate Created" ∨ job.status = "Estimate Sent") →
      (approveEstimate store id today).2 = updateJob store id (fun j =>
        { j with
            status := "Approved"
            approvalDate := some (isoDate today) })) ∧
    ((approveEstimate store id today).2.map
        (fun j => (j.estimateNumber, j.invoiceNumber)) =
      store.map (fun j => (j.estimateNumber, j.invoiceNumber))) ∧
    (¬(job.status = "Estimate Created" ∨ job.status = "Estimate Sent") →
      (approveEstimate store id today).2 = store) := by
  by_cases hok : job.status = "Estimate Created" ∨ job.status = "Estimate Sent"
  · have heq : approveEstimate store id today =
        (.ok (), updateJob store id (fun j =>
          applyStatusDateUpdates "Approved" today { j with status := "Approved" })) := by
      simp only [approveEstimate, hfind]
      rw [if_neg (by tauto)]
    have hfun : (fun j : Job =>
        applyStatusDateUpdates "Approved" today { j with status := "Approved" }) =
        (fun j : Job => { j with
          status := "Approved"
          approvalDate := some (isoDate today) }) :=
      funext (fun j => applyApproved today j)
    refine ⟨?_, ?_, ?_, ?_⟩
    · rw [heq]
      exact iff_of_true rfl hok
    · intro _
      rw [heq, hfun]
    · rw [heq]
      show (updateJob store id _).map _ = _
      simp only [updateJob, List.map_map]
      refine List.map_congr_left (fun j _ => ?_)
      by_cases hj : j.id = id
      · simp only [Function.comp_apply, if_pos hj]
        rfl
      · simp only [Function.comp_apply, if_neg hj]
    · intro hno
      exact absurd hok hno
  · have heq : approveEstimate store id today =
        (.error "Estimate has already been approved", store) := by
      simp only [approveEstimate, hfind]
      rw [if_pos (by tauto)]
    refine ⟨?_, ?_, ?_, ?_⟩
    · rw [heq]
      exact iff_of_false (by simp) hok
    · intro h
      exact absurd h hok
    · rw [heq]
    · intro _
      rw [heq]

/-- Witness for C2: approving a job in `Estimate Sent` (Scenario C). -/
theorem approveEstimate_spec_witness :
    ((approveEstimate [demoJob 1 "Estimate Sent"] 1 demoDate).1 = .ok () ↔
      ((demoJob 1 "Estimate Sent").status = "Estimate Created" ∨
        (demoJob 1 "Estimate Sent").status = "Estimate Sent")) ∧
    (approveEstimate [demoJob 1 "Estimate Sent"] 1 demoDate).2 =
      updateJob [demoJob 1 "Estimate Sent"] 1 (fun j =>
        { j with
            status := "Approved"
            approvalDate := some (isoDate demoDate) }) ∧
    (approveEstimate [demoJob 1 "Estimate Sent"] 1 demoDate).2.map
        (fun j => (j.estimateNumber, j.invoiceNumber)) =
      [demoJob 1 "Estimate Sent"].map
        (fun j => (j.estimateNumber, j.invoiceNumber)) :=
  ⟨(approveEstimate_spec [demoJob 1 "Estimate Sent"] 1 demoDate
      (demoJob 1 "Estimate Sent") rfl).1,
   (approveEstimate_spec [demoJob 1 "Estimate Sent"] 1 demoDate
      (demoJob 1 "Estimate Sent") rfl).2.1 (Or.inr rfl),
   (approveEstimate_spec [demoJob 1 "Estimate Sent"] 1 demoDate
      (demoJob 1 "Estimate Sent") rfl).2.2.1⟩

/-! ## C7: `createInvoice` -/

/-- C7: `createInvoice` succeeds iff the referenced job exists and its
status is exactly `Completed`; a missing job yields the `Job not found`
failure with the store untouched; on success the job gets the minted
invoice number, status `Invoiced` and today's `invoiceDate`; on any
failure the store is unchanged (no invoice number is assigned); and
after a successful call a second `createInvoice` on the same job fails
and changes nothing. -/
theorem createInvoice_spec (store : List Job) (jobId : Nat) (today : Date) :
    ((createInvoice store jobId today).1 = .ok () ↔
      (∃ job, findJob store jobId = some job ∧ job.status = "Completed")) ∧
    (findJob store jobId = none →
      createInvoice store jobId today = (.error "Job not found", store)) ∧
    (∀ job, findJob store jobId = some job → job.status = "Completed" →
      (createInvoice store jobId today).2 = updateJob store jobId (fun j =>
        { j with
            status := "Invoiced"
            invoiceNumber := some (generateInvoiceNumber store today)
            invoiceDate := some (isoDate today) })) ∧
    ((createInvoice store jobId today).1 ≠ Except.ok () →
      (createInvoice store jobId today).2 = store) ∧
    (∀ job, findJob store jobId = some job → job.status = "Completed" →
      (createInvoice ((createInvoice store jobId today).2) jobId today).1 ≠
        Except.ok () ∧
      (createInvoice ((createInvoice store jobId today).2) jobId today).2 =
        (createInvoice store jobId today).2) := by
  cases hfind : findJob store jobId with
  | none =>
    have heq : createInvoice store jobId today = (.error "Job not found", store) := by
      simp only [createInvoice, hfind]
    refine ⟨?_, fun _ => heq, ?_, ?_, ?_⟩
    · rw [heq]
      constructor
      · intro h
        exact absurd h (by simp)
      · rintro ⟨job, hj, -⟩
        exact Option.noConfusion hj
    · intro job hj
      exact Option.noConfusion hj
    · intro _
      rw [heq]
    · intro job hj
      exact Option.noConfusion hj
  | some job =>
    by_cases hok : job.status = "Completed"
    · have heq : createInvoice store jobId today =
          (.ok (), updateJob store jobId (fun j =>
            applyStatusDateUpdates "Invoiced" today
              { j with
                  status := "Invoiced"
                  invoiceNumber := some (generateInvoiceNumber store today) })) := by
        simp only [createInvoice, hfind]
        rw [if_neg (by simp [hok])]
      have hfun : (fun j : Job =>
          applyStatusDateUpdates "Invoiced" today
            { j with
                status := "Invoiced"
                invoiceNumber := some (generateInvoiceNumber store today) }) =
          (fun j : Job => { j with
            status := "Invoiced"
            invoiceNumber := some (generateInvoiceNumber store today)
            invoiceDate := some (isoDate today) }) :=
        funext (fun j => applyInvoiced today _ j)
      refine ⟨?_, ?_, ?_, ?_, ?_⟩
      · rw [heq]
        exact iff_of_true rfl ⟨job, rfl, hok⟩
      · intro hn
        exact Option.noConfusion hn
      · intro job2 hj2 _
        rw [heq, hfun]
      · intro hne
        rw [heq] at hne
        exact absurd rfl hne
      · intro job2 hj2 hok2
        have hstore2 : (createInvoice store jobId today).2 =
            updateJob store jobId (fun j : Job => { j with
              status := "Invoiced"
              invoiceNumber := some (generateInvoiceNumber store today)
              invoiceDate := some (isoDate today) }) := by
          rw [heq, hfun]
        have hfind2 : findJob (createInvoice store jobId today).2 jobId =
            some ({ job with
              status := "Invoiced"
              invoiceNumber := some (generateInvoiceNumber store today)
              invoiceDate := some (isoDate today) }) := by
          rw [hstore2, findJob_updateJob store jobId
            (fun j : Job => { j with status := "Invoiced", invoiceNumber := some (generateInvoiceNumber store today), invoiceDate := some (isoDate today) })
            (fun j => rfl), hfind]
          rfl
        have heq2 : createInvoice ((createInvoice store jobId today).2) jobId today =
            (.error "Job must be completed before invoicing",
              (createInvoice store jobId today).2) := by
          generalize hgen : (createInvoice store jobId today).2 = store2 at hfind2 ⊢
          simp only [createInvoice, hfind2]
          rw [if_pos (by decide)]
        rw [heq2]
        exact ⟨by simp, rfl⟩
    · have heq : createInvoice store jobId today =
          (.error "Job must be completed before invoicing", store) := by
        simp only [createInvoice, hfind]
        rw [if_pos hok]
      refine ⟨?_, ?_, ?_, ?_, ?_⟩
      · rw [heq]
        constructor
        · intro h
          exact absurd h (by simp)
        · rintro ⟨job2, hj2, hok2⟩
          obtain rfl := Option.some.inj hj2
          exact absurd hok2 hok
      · intro hn
        exact Option.noConfusion hn
      · intro job2 hj2 hok2
        obtain rfl := Option.some.inj hj2
        exact absurd hok2 hok
      · intro _
        rw [heq]
      · intro job2 hj2 hok2
        obtain rfl := Option.some.inj hj2
        exact absurd hok2 hok

/-- Witness for C7: invoicing a `Completed` job (Scenario D) and a
missing-job failure. -/
theorem createInvoice_spec_witness :
    ((createInvoice [demoJob 1 "Completed"] 1 demoDate).1 = .ok () ↔
      (∃ job, findJob [demoJob 1 "Completed"] 1 = some job ∧
        job.status = "Completed")) ∧
    (createInvoice [demoJob 1 "Completed"] 1 demoDate).2 =
      updateJob [demoJob 1 "Completed"] 1 (fun j =>
        { j with
            status := "Invoiced"
            invoiceNumber :=
              some (generateInvoiceNumber [demoJob 1 "Completed"] demoDate)
            invoiceDate := some (isoDate demoDate) }) ∧
    findJob ([] : List Job) 2 = none ∧
    createInvoice [] 2 demoDate = (.error "Job not found", []) :=
  ⟨(createInvoice_spec [demoJob 1 "Completed"] 1 demoDate).1,
   (createInvoice_spec [demoJob 1 "Completed"] 1 demoDate).2.2.1
     (demoJob 1 "Completed") rfl rfl,
   rfl,
   (createInvoice_spec [] 2 demoDate).2.1 rfl⟩

/-! ## C9: note editing and the `Paid` status -/

def paidNotesJob : Job := { demoJob 1 "Paid" with notes := some "old" }

/-- C9 counterexample: `updateJobNotes` on a job whose status is `Paid`
does not fail — it succeeds and overwrites the notes, contradicting the
claim that both note-editing operations reject paid jobs. -/
theorem updateJobNotes_paid_not_rejected :
    (updateJobNotes [paidNotesJob] 1 "new note").1 = Except.ok () ∧
    (updateJobNotes [paidNotesJob] 1 "new note").2.map Job.notes =
      [some "new note"] :=
  ⟨rfl, rfl⟩

/-- C9 amended: `updateInvoiceNotes` rejects edits exactly once the job
is `Paid` (failure result, store unchanged) and succeeds at any other
status, writing the trimmed notes; `updateJobNotes`, however, performs
no status check and succeeds at every status, `Paid` included. -/
theorem notes_editing_spec (store : List Job) (id : Nat) (notes : String)
    (job : Job) (hfind : findJob store id = some job) :
    (job.status = "Paid" →
      updateInvoiceNotes store id notes =
        (.error "Cannot edit paid invoice", store)) ∧
    (job.status ≠ "Paid" →
      updateInvoiceNotes store id notes =
        (.ok (), updateJob store id
          (fun j => { j with notes := trimOrNull notes }))) ∧
    (updateJobNotes store id notes).1 = Except.ok () := by
  refine ⟨?_, ?_, rfl⟩
  · intro hp
    simp only [updateInvoiceNotes, hfind]
    rw [if_pos hp]
  · intro hp
    simp only [updateInvoiceNotes, hfind]
    rw [if_neg hp]

/-- Witness for C9 (amended): a paid job rejects invoice-note edits while
`updateJobNotes` still reports success. -/
theorem notes_editing_spec_witness :
    updateInvoiceNotes [paidNotesJob] 1 "new note" =
      (.error "Cannot edit paid invoice", [paidNotesJob]) ∧
    (updateJobNotes [paidNotesJob] 1 "new note").1 = Except.ok () :=
  ⟨(notes_editing_spec [paidNotesJob] 1 "new note" paidNotesJob rfl).1 rfl,
   (notes_editing_spec [paidNotesJob] 1 "new note" paidNotesJob rfl).2.2⟩

/-! ## C6: `createEstimate` -/

theorem findLineItemError_none_iff :
    ∀ (items : List LineItemInput) (i : Nat),
      (findLineItemError items i = none ↔ ∀ it ∈ items, validItem it)
  | [], _ => by simp [findLineItemError]
  | it :: rest, i => by
    simp only [findLineItemError, List.forall_mem_cons]
    by_cases h1 : strTrim it.action = ""
    · rw [if_pos h1]
      simp [validItem, h1]
    · rw [if_neg h1]
      by_cases h2 : it.amount < 0
      · rw [if_pos h2]
        simp [validItem, not_le.mpr h2]
      · rw [if_neg h2]
        by_cases h3 : strTrim it.description = ""
        · rw [if_pos h3]
          simp [validItem, h3]
        · rw [if_neg h3]
          rw [findLineItemError_none_iff rest (i + 1)]
          have hv : validItem it := ⟨h1, le_of_not_lt h2, h3⟩
          simp [hv]

theorem foldl_add_amounts (items : List LineItemInput) :
    ∀ acc : ℚ, items.foldl (fun sum it => sum + it.amount) acc =
      acc + (items.map LineItemInput.amount).sum := by
  induction items with
  | nil =>
    intro acc
    simp
  | cons it rest ih =>
    intro acc
    simp only [List.foldl_cons, List.map_cons, List.sum_cons]
    rw [ih]
    ring

/-- C6: `createEstimate` returns a validation failure exactly when the
line-item list is empty or some item has a blank (after trimming) action
or description or a negative amount; when every item is valid the
created job has status `Estimate Created` and `totalAmount` equal to the
sum of the item amounts. -/
theorem createEstimate_spec (store : List Job) (newId customerId : Nat)
    (items : List LineItemInput) (notes : Option String) (today : Date)
    (rand : ℚ) :
    ((∃ j, (createEstimate store newId customerId items notes today rand).1 =
        Except.ok j) ↔ (items ≠ [] ∧ ∀ it ∈ items, validItem it)) ∧
    (∀ j, (createEstimate store newId customerId items notes today rand).1 =
        Except.ok j →
      j.status = "Estimate Created" ∧
      j.totalAmount = (items.map LineItemInput.amount).sum) := by
  cases items with
  | nil =>
    constructor
    · simp [createEstimate]
    · intro j hj
      simp [createEstimate] at hj
  | cons it rest =>
    have hemp : ¬((it :: rest).isEmpty = true) := by simp
    cases herr : findLineItemError (it :: rest) 0 with
    | some e =>
      have heq : (createEstimate store newId customerId (it :: rest) notes
          today rand).1 = Except.error e := by
        simp only [createEstimate, herr]
        rw [if_neg hemp]
      constructor
      · rw [heq]
        constructor
        · rintro ⟨j, hj⟩
          exact Except.noConfusion hj
        · rintro ⟨_, hall⟩
          have hnone := (findLineItemError_none_iff (it :: rest) 0).mpr hall
          rw [herr] at hnone
          exact Option.noConfusion hnone
      · intro j hj
        rw [heq] at hj
        exact Except.noConfusion hj
    | none =>
      have heq : (createEstimate store newId customerId (it :: rest) notes
          today rand).1 = Except.ok
            { id := newId
              customerId := customerId
              estimateNumber := generateEstimateNumber store today rand
              invoiceNumber := none
              estimateDate := isoDate today
              approvalDate := none
              startDate := none
              completionDate := none
              invoiceDate := none
              paymentDate := none
              status := "Estimate Created"
              totalAmount := (it :: rest).foldl (fun sum item => sum + item.amount) 0
              notes := optTrimOrNull notes } := by
        simp only [createEstimate, herr]
        rw [if_neg hemp]
      constructor
      · rw [heq]
        constructor
        · intro _
          exact ⟨by simp, (findLineItemError_none_iff (it :: rest) 0).mp herr⟩
        · intro _
          exact ⟨_, rfl⟩
      · intro j hj
        rw [heq] at hj
        simp only [Except.ok.injEq] at hj
        subst hj
        refine ⟨rfl, ?_⟩
        show (it :: rest).foldl (fun sum item => sum + item.amount) 0 = _
        rw [foldl_add_amounts]
        ring

def demoItems : List LineItemInput :=
  [⟨"Paint", 100, "walls"⟩, ⟨"Tile", 250.50, "floor"⟩]

/-- Witness for C6: the Scenario A inputs (100.00 and 250.50) validate,
creation succeeds, and the amounts sum to 350.50. -/
theorem createEstimate_spec_witness :
    (demoItems ≠ [] ∧ ∀ it ∈ demoItems, validItem it) ∧
    (∃ j, (createEstimate [] 1 1 demoItems none demoDate 0).1 = Except.ok j) ∧
    (demoItems.map LineItemInput.amount).sum = 350.50 := by
  have hvalid : ∀ it ∈ demoItems, validItem it := by
    intro it hit
    simp only [demoItems, List.mem_cons, List.not_mem_nil, or_false] at hit
    rcases hit with rfl | rfl
    · exact ⟨by decide, by norm_num, by decide⟩
    · exact ⟨by decide, by norm_num, by decide⟩
  refine ⟨⟨by decide, hvalid⟩, ?_, ?_⟩
  · exact (createEstimate_spec [] 1 1 demoItems none demoDate 0).1.mpr
      ⟨by decide, hvalid⟩
  · norm_num [demoItems]

/-! ## Identifier-format lemmas -/

theorem repr_data (n : Nat) : (Nat.repr n).data = natDigits n := by
  rw [repr_eq_natDigits]

theorem allDigits_padStartZeros (t : Nat) (s : String)
    (h : allDigits s = true) : allDigits (padStartZeros t s) = true := by
  unfold padStartZeros
  split
  · exact h
  · rw [allDigits_append]
    refine (Bool.and_eq_true _ _).mpr ⟨?_, h⟩
    simp only [allDigits, List.all_eq_true]
    intro c hc
    rw [List.eq_of_mem_replicate hc]
    decide

theorem padStartZeros_length (t : Nat) (s : String) :
    (padStartZeros t s).data.length = max t s.data.length := by
  unfold padStartZeros
  split
  · next h =>
    omega
  · next h =>
    show (List.replicate (t - s.data.length) '0' ++ s.data).length = _
    rw [List.length_append, List.length_replicate]
    omega

theorem pad2_length {n : Nat} (h : n < 100) : (pad2 n).data.length = 2 := by
  unfold pad2
  rw [padStartZeros_length, repr_data]
  rcases Nat.lt_or_ge n 10 with h1 | h1
  · rw [natDigits_length_lt10 h1]
    decide
  · rw [natDigits_length_two h1 h]
    decide

theorem pad2_digits (n : Nat) : allDigits (pad2 n) = true :=
  allDigits_padStartZeros _ _ (by rw [repr_eq_natDigits]; exact allDigits_repr n)

theorem pad3_length {n : Nat} (h : n < 1000) : (pad3 n).data.length = 3 := by
  unfold pad3
  rw [padStartZeros_length, repr_data]
  rcases Nat.lt_or_ge n 10 with h1 | h1
  · rw [natDigits_length_lt10 h1]
    decide
  · rcases Nat.lt_or_ge n 100 with h2 | h2
    · rw [natDigits_length_two h1 h2]
      decide
    · rw [natDigits_length_three h2 h]
      decide

theorem pad3_digits (n : Nat) : allDigits (pad3 n) = true :=
  allDigits_padStartZeros _ _ (by rw [repr_eq_natDigits]; exact allDigits_repr n)

theorem lastTwo_length {s : String} (h : 2 ≤ s.data.length) :
    (lastTwo s).data.length = 2 := by
  show (s.data.drop (s.data.length - 2)).length = 2
  rw [List.length_drop]
  omega

theorem lastTwo_digits {s : String} (h : allDigits s = true) :
    allDigits (lastTwo s) = true := by
  simp only [allDigits, List.all_eq_true] at h ⊢
  intro c hc
  exact h c (List.mem_of_mem_drop hc)

theorem yymmddOf_length (d : Date) (hy : 10 ≤ d.year) (hm : d.month < 100)
    (hd : d.day < 100) : (yymmddOf d).data.length = 6 := by
  have h1 : (lastTwo (Nat.repr d.year)).data.length = 2 :=
    lastTwo_length (by rw [repr_data]; exact natDigits_length_ge2 hy)
  show ((lastTwo (Nat.repr d.year) ++ pad2 d.month ++ pad2 d.day).data).length = 6
  simp only [data_append, List.length_append]
  rw [h1, pad2_length hm, pad2_length hd]

theorem yymmddOf_digits (d : Date) : allDigits (yymmddOf d) = true := by
  have h1 : allDigits (lastTwo (Nat.repr d.year)) = true :=
    lastTwo_digits (by rw [repr_eq_natDigits]; exact allDigits_repr _)
  show allDigits (lastTwo (Nat.repr d.year) ++ pad2 d.month ++ pad2 d.day) = true
  rw [allDigits_append, allDigits_append, h1, pad2_digits, pad2_digits]
  rfl

theorem randomDigits_bounds {rand : ℚ} (h0 : 0 ≤ rand) (h1 : rand < 1) :
    100 ≤ (Rat.floor (100 + rand * 900)).toNat ∧
      (Rat.floor (100 + rand * 900)).toNat ≤ 999 := by
  have hlb : (100 : ℤ) ≤ Rat.floor (100 + rand * 900) := by
    rw [Rat.le_floor]
    push_cast
    nlinarith
  have hub : Rat.floor (100 + rand * 900) ≤ 999 := by
    by_contra hcon
    push_neg at hcon
    have h1000 : (1000 : ℤ) ≤ Rat.floor (100 + rand * 900) := by omega
    rw [Rat.le_floor] at h1000
    push_cast at h1000
    nlinarith
  omega

/-- The shape `/^\d{6}T\d{3}[A-Z]$/` of an estimate number, as a check on
the character list. -/
def checkEst : List Char → Bool
  | [a, b, c, d, e, f, t, g, h, i, l] =>
    a.isDigit && b.isDigit && c.isDigit && d.isDigit && e.isDigit && f.isDigit &&
    (t == 'T') && g.isDigit && h.isDigit && i.isDigit &&
    decide ('A' ≤ l) && decide (l ≤ 'Z')
  | _ => false

/-- Syntactic well-formedness of an estimate number. -/
def estNumWellFormedB (s : String) : Bool := checkEst s.data

theorem exists_len6 {l : List Char} (h : l.length = 6) :
    ∃ a b c d e f, l = [a, b, c, d, e, f] := by
  match l, h with
  | [a, b, c, d, e, f], _ => exact ⟨a, b, c, d, e, f, rfl⟩

theorem exists_len3 {l : List Char} (h : l.length = 3) :
    ∃ a b c, l = [a, b, c] := by
  match l, h with
  | [a, b, c], _ => exact ⟨a, b, c, rfl⟩

theorem ofNat_le25_upper {c : Nat} (h : c ≤ 25) :
    'A' ≤ Char.ofNat (65 + c) ∧ Char.ofNat (65 + c) ≤ 'Z' := by
  interval_cases c <;> exact ⟨by decide, by decide⟩

/-! ## C3: the estimate-number format -/

/-- C3 amended: whenever at most 25 estimate numbers already carry
today's prefix (and today's date renders as six digits, and the random
draw lies in `[0, 1)`), the generated estimate number is well-formed —
six digits, `T`, three digits, one uppercase letter — and its trailing
letter is the character at code point `65 + count`.  (For 26 or more
same-day estimates the trailing character leaves `A`–`Z`, which is the
counterexample to the claim as stated.) -/
theorem generateEstimateNumber_wellFormed (store : List Job) (today : Date)
    (rand : ℚ) (hy : 10 ≤ today.year) (hm : today.month < 100)
    (hd : today.day < 100) (h0 : 0 ≤ rand) (h1 : rand < 1)
    (hc : estPfxCount store (yymmddOf today) ≤ 25) :
    estNumWellFormedB (generateEstimateNumber store today rand) = true ∧
    (generateEstimateNumber store today rand).data.take 6 =
      (yymmddOf today).data ∧
    (generateEstimateNumber store today rand).data.getLast? =
      some (Char.ofNat (65 + estPfxCount store (yymmddOf today))) := by
  obtain ⟨hrl, hru⟩ := randomDigits_bounds h0 h1
  have hdata : (generateEstimateNumber store today rand).data =
      (yymmddOf today).data ++ 'T' ::
        (natDigits ((Rat.floor (100 + rand * 900)).toNat) ++
          [Char.ofNat (65 + estPfxCount store (yymmddOf today))]) := by
    show ((yymmddOf today ++ "T" ++
        Nat.repr ((Rat.floor (100 + rand * 900)).toNat) ++
        String.mk [Char.ofNat (65 + estPfxCount store (yymmddOf today))]).data) = _
    rw [repr_eq_natDigits]
    simp [data_append]
  obtain ⟨a, b, c, d, e, f, hpfx⟩ := exists_len6 (yymmddOf_length today hy hm hd)
  obtain ⟨g, h', i, hrd⟩ := exists_len3
    (natDigits_length_three hrl (by omega))
  have hall : allDigits (yymmddOf today) = true := yymmddOf_digits today
  rw [show allDigits (yymmddOf today) = (yymmddOf today).data.all Char.isDigit
    from rfl, hpfx] at hall
  simp only [List.all_cons, List.all_nil, Bool.and_eq_true] at hall
  obtain ⟨ha, hb, hcc, hdd, he, ⟨hf, -⟩⟩ := hall
  have hrdig := natDigits_all_digit ((Rat.floor (100 + rand * 900)).toNat)
  rw [hrd] at hrdig
  have hg : g.isDigit = true := hrdig g (by simp)
  have hh : h'.isDigit = true := hrdig h' (by simp)
  have hi : i.isDigit = true := hrdig i (by simp)
  obtain ⟨hu1, hu2⟩ := ofNat_le25_upper hc
  refine ⟨?_, ?_, ?_⟩
  · show checkEst (generateEstimateNumber store today rand).data = true
    rw [hdata, hpfx, hrd]
    show checkEst [a, b, c, d, e, f, 'T', g, h', i,
      Char.ofNat (65 + estPfxCount store (yymmddOf today))] = true
    simp [checkEst, ha, hb, hcc, hdd, he, hf, hg, hh, hi, hu1, hu2]
  · rw [hdata, hpfx]
    rfl
  · rw [hdata]
    rw [show (yymmddOf today).data ++ 'T' ::
        (natDigits ((Rat.floor (100 + rand * 900)).toNat) ++
          [Char.ofNat (65 + estPfxCount store (yymmddOf today))]) =
        ((yymmddOf today).data ++ 'T' ::
          natDigits ((Rat.floor (100 + rand * 900)).toNat)) ++
          [Char.ofNat (65 + estPfxCount store (yymmddOf today))] from by simp]
    exact List.getLast?_concat _

/-- Witness for C3 with an empty store on 2025-10-11 and random draw 0. -/
theorem generateEstimateNumber_wellFormed_witness :
    (10 ≤ demoDate.year ∧ demoDate.month < 100 ∧ demoDate.day < 100 ∧
      (0 : ℚ) ≤ 0 ∧ (0 : ℚ) < 1 ∧ estPfxCount [] (yymmddOf demoDate) ≤ 25) ∧
    (estNumWellFormedB (generateEstimateNumber [] demoDate 0) = true ∧
      (generateEstimateNumber [] demoDate 0).data.take 6 =
        (yymmddOf demoDate).data ∧
      (generateEstimateNumber [] demoDate 0).data.getLast? =
        some (Char.ofNat (65 + estPfxCount [] (yymmddOf demoDate)))) :=
  ⟨⟨by decide, by decide, by decide, le_refl 0, by decide, by decide⟩,
    generateEstimateNumber_wellFormed [] demoDate 0 (by decide) (by decide)
      (by decide) (le_refl 0) (by decide) (by decide)⟩

def estCexJob : Job :=
  { demoJob 1 "Estimate Created" with estimateNumber := "251011T100A" }

def estCexStore : List Job := List.replicate 26 estCexJob

/-- C3 counterexample: with 26 estimate numbers already carrying today's
prefix the generated string ends in `'['` (code point 65 + 26 = 91), so
it is not of the claimed shape `\d{6}T\d{3}[A-Z]`. -/
theorem generateEstimateNumber_not_wellFormed_at_26 :
    estNumWellFormedB (generateEstimateNumber estCexStore demoDate 0) = false := by
  have hfl : (Rat.floor (100 + (0 : ℚ) * 900)).toNat = 100 := by
    have h : (100 + (0 : ℚ) * 900) = ((100 : ℤ) : ℚ) := by norm_num
    show (⌊(100 + (0 : ℚ) * 900)⌋).toNat = 100
    rw [h, Int.floor_intCast]
    rfl
  have hgen : generateEstimateNumber estCexStore demoDate 0 =
      yymmddOf demoDate ++ "T" ++
        Nat.repr ((Rat.floor (100 + (0 : ℚ) * 900)).toNat) ++
        String.mk [Char.ofNat (65 + 26)] := rfl
  rw [hgen, hfl]
  decide

/-! ## C4: the invoice-number format -/

/-- C4 amended: whenever at most 998 invoice numbers already carry
today's prefix (and today's date renders as six digits), the generated
invoice number is the six-digit date prefix followed by the 3-digit
zero-padded sequence `count + 1`, all digits; the first invoice of a day
gets sequence `001`.  (At 999 same-day invoices the sequence takes four
digits, which is the counterexample to the claim as stated.) -/
theorem generateInvoiceNumber_format (store : List Job) (today : Date)
    (hy : 10 ≤ today.year) (hm : today.month < 100) (hd : today.day < 100)
    (hc : invPfxCount store (yymmddOf today) ≤ 998) :
    generateInvoiceNumber store today =
      yymmddOf today ++ pad3 (invPfxCount store (yymmddOf today) + 1) ∧
    (pad3 (invPfxCount store (yymmddOf today) + 1)).data.length = 3 ∧
    allDigits (pad3 (invPfxCount store (yymmddOf today) + 1)) = true ∧
    (yymmddOf today).data.length = 6 ∧
    allDigits (yymmddOf today) = true ∧
    (invPfxCount store (yymmddOf today) = 0 →
      pad3 (invPfxCount store (yymmddOf today) + 1) = "001") := by
  refine ⟨rfl, pad3_length (by omega), pad3_digits _,
    yymmddOf_length today hy hm hd, yymmddOf_digits today, ?_⟩
  intro h0
  rw [h0]
  decide

/-- Witness for C4 with an empty store: the first invoice of the day
gets sequence 001. -/
theorem generateInvoiceNumber_format_witness :
    invPfxCount [] (yymmddOf demoDate) = 0 ∧
    generateInvoiceNumber [] demoDate =
      yymmddOf demoDate ++ pad3 (invPfxCount [] (yymmddOf demoDate) + 1) ∧
    pad3 (invPfxCount [] (yymmddOf demoDate) + 1) = "001" :=
  ⟨rfl,
   (generateInvoiceNumber_format [] demoDate (by decide) (by decide)
     (by decide) (by decide)).1,
   (generateInvoiceNumber_format [] demoDate (by decide) (by decide)
     (by decide) (by decide)).2.2.2.2.2 rfl⟩

def invCexJob : Job :=
  { demoJob 1 "Invoiced" with invoiceNumber := some "251011001" }

def invCexStore : List Job := List.replicate 999 invCexJob

set_option maxRecDepth 8000 in
/-- C4 counterexample: with 999 same-day invoice numbers in the store
the "3-digit" sequence is `1000`, so the output has 10 characters
instead of the 9 the claimed `YYMMDD` + 3-digit format implies. -/
theorem generateInvoiceNumber_four_digit_seq :
    generateInvoiceNumber invCexStore demoDate = "2510111000" ∧
    (generateInvoiceNumber invCexStore demoDate).data.length ≠ 9 :=
  ⟨by decide, by decide⟩

end CW
